import Mathlib

/-
  Verification development for the EasyPix editor screen
  (src/components/EditorScreen.tsx).

  The interactive viewport engine, undo stack, and raster edit operations of
  EditorScreen.tsx are embedded as pure Lean functions.  JavaScript numbers
  are modelled as exact rationals (ℚ); division is total in ℚ (x / 0 = 0),
  whereas JS would produce NaN/Infinity — the few places where this matters
  are pointed out in comments.  DOM readings (getBoundingClientRect,
  Math.hypot distances, collaborator results) enter the model as explicit
  parameters.
-/

namespace EasyPix

/-- clamp from EditorScreen.tsx line 106:
    `const clamp = (v, a, b) => Math.max(a, Math.min(b, v))`. -/
def clamp (v a b : ℚ) : ℚ := max a (min b v)

/-- TransformState from EditorScreen.tsx lines 78-82: translation in px and scale. -/
structure TransformState where
  tx : ℚ
  ty : ℚ
  scale : ℚ
deriving Repr, DecidableEq

/-- velocityRef payload from EditorScreen.tsx line 89. -/
structure Velocity where
  vx : ℚ
  vy : ℚ
deriving Repr, DecidableEq

/-- One tracked pointer: id plus clientX/clientY of its latest event. -/
structure Pointer where
  pid : ℕ
  x : ℚ
  y : ℚ
deriving Repr, DecidableEq

/-- The mutable refs of the gesture engine gathered in one state record:
    `pointers` (the id-keyed Map, in insertion order), `lastPointer`
    (lastPointerRef: time, x, y), `lastPinchDistance`
    (the `_lastPinchDistance` expando on targetRef; `none` models null),
    `target` (targetRef) and `velocity` (velocityRef). -/
structure GestureState where
  pointers : List Pointer
  lastPointer : Option (ℚ × ℚ × ℚ)
  lastPinchDistance : Option ℚ
  target : TransformState
  velocity : Velocity
deriving Repr, DecidableEq

/-- `pointers.current.set(id, e)` on a JS Map: an existing key is updated in
    place (insertion order kept), a new key is appended. -/
def setPointer (ps : List Pointer) (p : Pointer) : List Pointer :=
  if ps.any (fun q => q.pid = p.pid) then
    ps.map (fun q => if q.pid = p.pid then p else q)
  else
    ps ++ [p]

/-- The 16.67 ms frame unit `1000 / 60` from EditorScreen.tsx lines 189-190. -/
def frameMs : ℚ := 1000 / 60

/-- onPointerDown, EditorScreen.tsx lines 162-172: track the pointer, cancel
    any fling velocity, record the last pointer sample.  (setPointerCapture
    and startLoop are effects outside the state record.) -/
def onPointerDown (s : GestureState) (pid : ℕ) (x y t : ℚ) : GestureState :=
  { s with
    pointers := setPointer s.pointers ⟨pid, x, y⟩,
    velocity := ⟨0, 0⟩,
    lastPointer := some (t, x, y) }

/-- Single-pointer (pan) branch of onPointerMove, EditorScreen.tsx lines
    182-202, entered after the pointer map has been updated; `px py` are the
    event coordinates, `now` is performance.now().

    Source order is preserved: the velocity is computed from the previous
    `lastPointerRef` sample (line 186-190), then `lastPointerRef` is
    overwritten with the current position (line 192), and only after that are
    the target increments computed by reading `lastPointerRef` again (lines
    198-199) — so each increment is `px - px = 0`.  Line 195 of the source
    (`+= (p.clientX - window.innerWidth / 2) * 0`, the "inert placeholder")
    adds zero and is folded away.  The `|| 0` on lines 198-199 maps a falsy
    delta (0 or NaN) to 0, the identity here. -/
def panStep (s : GestureState) (px py now : ℚ) : GestureState :=
  let v : Velocity :=
    match s.lastPointer with
    | some (t0, lx, ly) =>
        let dt := max 1 (now - t0)
        ⟨(px - lx) / (dt / frameMs), (py - ly) / (dt / frameMs)⟩
    | none => s.velocity
  let lp : ℚ × ℚ × ℚ := (now, px, py)
  let t1 : TransformState :=
    { tx := s.target.tx + (px - lp.2.1),
      ty := s.target.ty + (py - lp.2.2),
      scale := clamp s.target.scale (3 / 10) 4 }
  { s with velocity := v, lastPointer := some lp, target := t1 }

/-- The `_lastPinchDistance` bootstrap of EditorScreen.tsx lines 210-212:
    a falsy stored value (null or 0) is replaced by the current distance
    before being read as prevDist. -/
def pinchPrevDist (last : Option ℚ) (dist : ℚ) : ℚ :=
  match last with
  | none => dist
  | some d => if d = 0 then dist else d

/-- Pinch branch of onPointerMove, EditorScreen.tsx lines 203-233, entered
    after the map update; `a b` are the first two tracked pointers, `dist` is
    the Math.hypot inter-pointer distance (passed in because square roots of
    the coordinates are irrational; every nonnegative value is realizable),
    `icx icy` is the reading `imgRect.left + imgRect.width / 2` /
    `imgRect.top + imgRect.height / 2` of the rendered image's bounding box
    center, and `rectAvail` tells whether the container/image refs were
    non-null (line 221) so the focal translation adjustment runs.

    When `dist` and the stored distance are both zero, `dist / prevDist` is
    0/0: NaN in JS, 0 in this rational embedding. -/
def pinchStep (s : GestureState) (a b : Pointer) (dist icx icy : ℚ)
    (rectAvail : Bool) : GestureState :=
  let midx := (a.x + b.x) / 2
  let midy := (a.y + b.y) / 2
  let prevDist := pinchPrevDist s.lastPinchDistance dist
  let scaleFactor := dist / prevDist
  let prevScale := s.target.scale
  let newScale := clamp (prevScale * scaleFactor) (3 / 10) 4
  let cx := midx - icx
  let cy := midy - icy
  let t1 : TransformState :=
    if rectAvail then
      { s.target with
        tx := s.target.tx - (newScale / prevScale - 1) * cx,
        ty := s.target.ty - (newScale / prevScale - 1) * cy }
    else s.target
  { s with
    target := { t1 with scale := newScale },
    lastPinchDistance := some dist }

/-- onPointerMove, EditorScreen.tsx lines 174-235: ignore untracked pointer
    ids, update the map, then dispatch on the number of tracked pointers
    (one → pan, two or more → pinch on the first two ids). -/
def onPointerMove (s : GestureState) (pid : ℕ) (x y now dist icx icy : ℚ)
    (rectAvail : Bool) : GestureState :=
  if ¬ s.pointers.any (fun q => q.pid = pid) then s
  else
    let ps := setPointer s.pointers ⟨pid, x, y⟩
    let s1 := { s with pointers := ps }
    match ps with
    | [] => s1
    | [p] => panStep s1 p.x p.y now
    | a :: b :: _ => pinchStep s1 a b dist icx icy rectAvail

/-- onPointerUp, EditorScreen.tsx lines 237-247: drop the pointer, null the
    pinch distance and the last pointer sample; velocity is kept so the fling
    continues in the loop. -/
def onPointerUp (s : GestureState) (pid : ℕ) : GestureState :=
  { s with
    pointers := s.pointers.filter (fun q => ¬ q.pid = pid),
    lastPinchDistance := none,
    lastPointer := none }

/-- State of the animation loop: displayed transform (transformRef), target
    (targetRef) and fling velocity (velocityRef). -/
structure LoopState where
  cur : TransformState
  tgt : TransformState
  vel : Velocity
deriving Repr, DecidableEq

/-- Exponential easing of one frame, EditorScreen.tsx lines 117-120:
    `cur += (tgt - cur) * 0.15` on each component. -/
def easeStep (cur tgt : TransformState) : TransformState :=
  ⟨cur.tx + (tgt.tx - cur.tx) * (15 / 100),
   cur.ty + (tgt.ty - cur.ty) * (15 / 100),
   cur.scale + (tgt.scale - cur.scale) * (15 / 100)⟩

/-- Fling application of one frame, EditorScreen.tsx lines 123-129: only when
    a velocity component exceeds 0.02 in absolute value is the velocity added
    to the displayed translation and decayed by the 0.92 friction factor;
    otherwise both are left untouched. -/
def applyFling (c : TransformState) (v : Velocity) : TransformState × Velocity :=
  if (2 : ℚ) / 100 < |v.vx| ∨ (2 : ℚ) / 100 < |v.vy| then
    (⟨c.tx + v.vx, c.ty + v.vy, c.scale⟩,
     ⟨v.vx * (92 / 100), v.vy * (92 / 100)⟩)
  else (c, v)

/-- Stop condition `closeEnough` of EditorScreen.tsx lines 135-136: display
    within (0.3, 0.3, 0.001) of the target and both velocity components
    below 0.05. -/
def closeEnough (tgt c : TransformState) (v : Velocity) : Prop :=
  |tgt.tx - c.tx| < (3 : ℚ) / 10 ∧ |tgt.ty - c.ty| < (3 : ℚ) / 10 ∧
  |tgt.scale - c.scale| < (1 : ℚ) / 1000 ∧
  |v.vx| < (5 : ℚ) / 100 ∧ |v.vy| < (5 : ℚ) / 100

instance (tgt c : TransformState) (v : Velocity) : Decidable (closeEnough tgt c v) := by
  unfold closeEnough
  infer_instance

/-- One animation frame of the loop body, EditorScreen.tsx lines 112-147.
    The returned Bool is whether a further frame was scheduled
    (requestAnimationFrame on line 139); on stop the display is snapped to
    the target and the velocity reset to exactly (0, 0) (lines 142-145). -/
def tick (s : LoopState) : LoopState × Bool :=
  let c1 := easeStep s.cur s.tgt
  let r := applyFling c1 s.vel
  if closeEnough s.tgt r.1 r.2 then
    (⟨s.tgt, s.tgt, ⟨0, 0⟩⟩, false)
  else
    (⟨r.1, s.tgt, r.2⟩, true)

/-- Screen x-coordinate of an image point under the CSS transform
    `translate(tx px, ty px) scale(s)` with the default center transform
    origin: the point at offset `u` from the image's layout center (whose
    untransformed screen coordinate is `c0`) renders at `c0 + tx + s * u`.
    The same formula serves for the y axis. -/
def screenX (c0 tx s u : ℚ) : ℚ := c0 + tx + s * u

/-- pushUndo, EditorScreen.tsx line 291:
    `setUndoStack((s) => [uri, ...s.slice(0, 9)])` — prepend the archived
    uri, keeping at most the first nine previous entries. -/
def pushUndo (uri : String) (s : List String) : List String := uri :: s.take 9

/-- The undo stack produced by a sequence of successful edits starting from
    the empty stack: `us` lists the archived uris in chronological order
    (each successful operation calls pushUndo with the then-current uri). -/
def pushAll (us : List String) : List String :=
  us.foldl (fun s u => pushUndo u s) []

/-- handleUndo, EditorScreen.tsx lines 336-342:
    `const [latest, ...rest] = undoStack; if (latest) {...}` — the guard is
    JS truthiness, so an undefined head (empty stack) and an empty-string
    head both leave current uri and stack untouched. -/
def handleUndo (cur : String) (stack : List String) : String × List String :=
  match stack with
  | [] => (cur, stack)
  | latest :: rest => if latest = "" then (cur, stack) else (latest, rest)

/-- Repeated undo: `undoN k (cur, stack)` presses Undo k times. -/
def undoN : ℕ → String × List String → String × List String
  | 0, p => p
  | Nat.succ n, p => undoN n (handleUndo p.1 p.2)

/-- JS Math.round: round half toward positive infinity, `⌊q + 1/2⌋`. -/
def jround (q : ℚ) : ℤ := ⌊q + 1 / 2⌋

/-- Result of a ratio crop: source rectangle origin, output dimensions and
    the encoding mime type handed to canvas.toDataURL. -/
structure CropResult where
  sx : ℤ
  sy : ℤ
  outW : ℤ
  outH : ℤ
  format : String
deriving Repr, DecidableEq

/-- Ratio crop of the ratio tool, EditorScreen.tsx lines 497-525, for a
    source image of natural size W×H and a target ratio a:b.  If the image
    is wider than the target ratio, the width is cropped (centered,
    Math.round-ed); otherwise the height is.  The canvas is encoded as
    lossless "image/png" (line 522). -/
def cropToRatio (w h a b : ℕ) : CropResult :=
  let ratTarget : ℚ := (a : ℚ) / (b : ℚ)
  let ratImg : ℚ := (w : ℚ) / (h : ℚ)
  if ratTarget < ratImg then
    let srcW := jround ((h : ℚ) * ratTarget)
    ⟨jround (((w : ℚ) - (srcW : ℚ)) / 2), 0, srcW, (h : ℤ), "image/png"⟩
  else
    let srcH := jround ((w : ℚ) / ratTarget)
    ⟨0, jround (((h : ℚ) - (srcH : ℚ)) / 2), (w : ℤ), srcH, "image/png"⟩

/-- The same operation transcribed from the words of the spec (section 4.2):
    "if sourceAspect > targetRatio, crop width = height·targetRatio,
    sx=(W−cropW)/2, sy=0; else crop height = width/targetRatio,
    sy=(H−cropH)/2, sx=0; pixel coordinates rounded to integers; lossless
    output" — kept as a separate definition to compare with the one read
    off the code. -/
def cropToRatioSpec (w h a b : ℕ) : CropResult :=
  let ratTarget : ℚ := (a : ℚ) / (b : ℚ)
  let sourceAspect : ℚ := (w : ℚ) / (h : ℚ)
  if ratTarget < sourceAspect then
    let cropW := jround ((h : ℚ) * ratTarget)
    ⟨jround (((w : ℚ) - (cropW : ℚ)) / 2), 0, cropW, (h : ℤ), "image/png"⟩
  else
    let cropH := jround ((w : ℚ) / ratTarget)
    ⟨0, jround (((h : ℚ) - (cropH : ℚ)) / 2), (w : ℤ), cropH, "image/png"⟩

/-- Flip H of EditorScreen.tsx lines 540-558.  A raster is a list of rows of
    pixel values.  The canvas sequence `translate(width, 0); scale(-1, 1);
    drawImage(img, 0, 0)` sends source column x to destination column
    width − 1 − x on an unchanged width×height canvas, i.e. it reverses
    every row. -/
def flipHorizontal (img : List (List ℕ)) : List (List ℕ) :=
  img.map List.reverse

/-- Common shape of the edit handlers of EditorScreen.tsx: a fallible
    operation produces a new uri or throws; only on success are
    `pushUndo(currentImageUri)` and `setCurrentImageUri(result)` reached, a
    failure is caught and surfaced as the handler's alert message. The
    result is (current uri, undo stack, reported error). -/
def applyEdit (res : Except String String) (failMsg : String) (cur : String)
    (stack : List String) : String × List String × Option String :=
  match res with
  | Except.ok newUri => (newUri, pushUndo cur stack, none)
  | Except.error _ => (cur, stack, some failMsg)

/-- applyCanvasOperations, EditorScreen.tsx lines 265-289: decode failure
    rejects (img.onerror), a missing 2d context throws "No canvas context",
    otherwise the re-encoded data url is produced. -/
def applyCanvasOperations (decodeOk ctxOk : Bool) (encoded : String) :
    Except String String :=
  if decodeOk = false then Except.error "image decode failed"
  else if ctxOk = false then Except.error "No canvas context"
  else Except.ok encoded

/-- handleBackgroundRemove, EditorScreen.tsx lines 345-359: `res` is the
    outcome of the external removeBackground collaborator. -/
def handleBackgroundRemove (res : Except String String) (cur : String)
    (stack : List String) : String × List String × Option String :=
  applyEdit res "Background removal failed." cur stack

/-- Outcome of the overlay-apply handler: the current uri and undo stack it
    leaves behind, the alert it reported (if any), whether the handler ever
    ran to completion (its catch/finally included), and the final value of
    the isProcessing busy flag. -/
structure OverlayOutcome where
  cur : String
  stack : List String
  alert : Option String
  settled : Bool
  processing : Bool
deriving Repr, DecidableEq

/-- handleApplyOverlay, EditorScreen.tsx lines 395-431.  The two image loads
    are awaited as `await new Promise((r) => (img.onload = r))` (lines 403
    and 407) with NO onerror handler, so when either image fails to decode
    the awaited promise never settles: the handler suspends forever — the
    catch and finally clauses never run, no alert is shown, and
    isProcessing stays true.  `mainLoads` / `ovLoads` say whether the two
    decodes succeed; `composite` is the outcome of the canvas steps inside
    the try (a throw there, e.g. a null 2d context hit by `ctx.drawImage`,
    rejects and reaches the catch of line 424-426).  Only on full success
    are `pushUndo(currentImageUri)` and `setCurrentImageUri(newUri)`
    reached (lines 420-421). -/
def handleApplyOverlay (mainLoads ovLoads : Bool)
    (composite : Except String String) (cur : String)
    (stack : List String) : OverlayOutcome :=
  if mainLoads = false then
    ⟨cur, stack, none, false, true⟩
  else if ovLoads = false then
    ⟨cur, stack, none, false, true⟩
  else
    match composite with
    | Except.ok newUri => ⟨newUri, pushUndo cur stack, none, true, false⟩
    | Except.error _ => ⟨cur, stack, some "Apply overlay failed", true, false⟩

/-! ## Helper lemmas -/

/-- Pushing onto a stack already truncated to nine entries selects the same
    first ten elements as pushing onto the untruncated stack. -/
lemma take_push_aux (l : List String) (u : String) (s : List String) :
    (l ++ u :: s.take 9).take 10 = (l ++ u :: s).take 10 := by
  rw [List.take_append_eq_append_take, List.take_append_eq_append_take]
  congr 1
  cases hm : 10 - l.length with
  | zero => simp
  | succ mm =>
      have hmm : mm ≤ 9 := by omega
      simp only [List.take_succ_cons, List.take_take]
      rw [Nat.min_eq_left hmm]

/-- Folding pushUndo over a chronological list of archived uris, starting
    from any stack of at most ten entries, keeps the ten most recent. -/
lemma pushAll_general (us : List String) :
    ∀ s : List String, s.length ≤ 10 →
      us.foldl (fun t u => pushUndo u t) s = (us.reverse ++ s).take 10 := by
  induction us with
  | nil =>
      intro s hs
      simp [List.take_of_length_le hs]
  | cons u us ih =>
      intro s hs
      have h1 : (pushUndo u s).length ≤ 10 := by
        simp only [pushUndo, List.length_cons, List.length_take]
        omega
      calc (u :: us).foldl (fun t u => pushUndo u t) s
          = us.foldl (fun t u => pushUndo u t) (pushUndo u s) := rfl
        _ = (us.reverse ++ pushUndo u s).take 10 := ih (pushUndo u s) h1
        _ = (us.reverse ++ u :: s.take 9).take 10 := rfl
        _ = (us.reverse ++ u :: s).take 10 := take_push_aux _ u s
        _ = ((u :: us).reverse ++ s).take 10 := by
              simp [List.reverse_cons, List.append_assoc]

/-- Reading the flipped raster's row i gives the reverse of row i of the
    source raster (out-of-range rows are empty on both sides). -/
lemma flip_getD (img : List (List ℕ)) (i : ℕ) :
    (flipHorizontal img).getD i [] = (img.getD i []).reverse := by
  unfold flipHorizontal
  rw [List.getD_eq_getElem?_getD, List.getD_eq_getElem?_getD, List.getElem?_map]
  cases img[i]? <;> simp

/-- Reading a reversed row at j gives the source row at its mirrored index. -/
lemma reverse_getD (l : List ℕ) (j : ℕ) (hj : j < l.length) :
    l.reverse.getD j 0 = l.getD (l.length - 1 - j) 0 := by
  have h1 : j < l.reverse.length := by simpa using hj
  have h2 : l.length - 1 - j < l.length := by omega
  rw [List.getD_eq_getElem l.reverse 0 h1, List.getD_eq_getElem l 0 h2,
    List.getElem_reverse]

/-- Focal-point algebra: after the translation correction
    `tx - (ns / ps - 1) * (m - (c0 + tx))` the image point that was at
    screen coordinate m at scale ps is again at m at scale ns. -/
lemma focal_aux (c0 tx ps ns m : ℚ) (hps : ps ≠ 0) :
    c0 + (tx - (ns / ps - 1) * (m - (c0 + tx))) +
      ns * ((m - (c0 + tx)) / ps) = m := by
  field_simp
  ring

/-- The image point u := (m - (c0 + tx)) / ps is the one under screen
    coordinate m before the update. -/
lemma focal_before_aux (c0 tx ps m : ℚ) (hps : ps ≠ 0) :
    c0 + tx + ps * ((m - (c0 + tx)) / ps) = m := by
  field_simp

/-- Unfolding of the pinch translation update on the x axis: the target is
    moved by −(newScale/prevScale − 1) times the midpoint's offset from the
    image center read off the bounding box. -/
lemma pinchStep_tx (s : GestureState) (a b : Pointer) (dist icx icy : ℚ) :
    (pinchStep s a b dist icx icy true).target.tx
      = s.target.tx -
        ((pinchStep s a b dist icx icy true).target.scale / s.target.scale - 1)
          * ((a.x + b.x) / 2 - icx) := rfl

/-- Unfolding of the pinch translation update on the y axis. -/
lemma pinchStep_ty (s : GestureState) (a b : Pointer) (dist icx icy : ℚ) :
    (pinchStep s a b dist icx icy true).target.ty
      = s.target.ty -
        ((pinchStep s a b dist icx icy true).target.scale / s.target.scale - 1)
          * ((a.y + b.y) / 2 - icy) := rfl

/-! ## Claim theorems -/

/-- C1: claimed — on every pan move, target.tx += Δx and target.ty += Δy,
    with velocity the displacement normalized to a 16.67 ms frame unit.
    What the code does: because lastPointerRef is overwritten with the
    current position before the deltas are read (EditorScreen.tsx line 192
    vs lines 198-199), the pan branch adds exactly zero to the target
    translation on every move; only the velocity is set.  At the concrete
    failing input (pointer 1 at (0,0) at t = 0, moved to (10,0) at t = 16)
    the target stays (0, 0, 1) while Δx = 10, and the velocity is
    10 * frameMs / 16 = 125/12. -/
theorem pan_leaves_target_translation_unchanged :
    (∀ (s : GestureState) (px py now : ℚ),
        (panStep s px py now).target.tx = s.target.tx ∧
        (panStep s px py now).target.ty = s.target.ty) ∧
    onPointerMove ⟨[⟨1, 0, 0⟩], some (0, 0, 0), none, ⟨0, 0, 1⟩, ⟨0, 0⟩⟩
        1 10 0 16 0 0 0 true
      = ⟨[⟨1, 10, 0⟩], some (16, 10, 0), none, ⟨0, 0, 1⟩,
          ⟨10 * frameMs / 16, 0⟩⟩ := by
  constructor
  · intro s px py now
    constructor <;> simp [panStep]
  · norm_num [onPointerMove, setPointer, panStep, frameMs, clamp]

/-- C2: for every pinch update (with the container and image refs available
    and the displayed transform equal to the target, i.e. pre-easing), the
    engine adjusts each translation axis by −(newScale/prevScale − 1) times
    the midpoint's offset from the image center, and the image point that
    was under the pinch midpoint is still under it after the update. -/
theorem pinch_focal_point (s : GestureState) (a b : Pointer)
    (dist c0x c0y icx icy midx midy ux uy : ℚ)
    (hs : s.target.scale ≠ 0)
    (hicx : icx = c0x + s.target.tx) (hicy : icy = c0y + s.target.ty)
    (hmx : midx = (a.x + b.x) / 2) (hmy : midy = (a.y + b.y) / 2)
    (hux : ux = (midx - icx) / s.target.scale)
    (huy : uy = (midy - icy) / s.target.scale) :
    screenX c0x s.target.tx s.target.scale ux = midx ∧
    screenX c0y s.target.ty s.target.scale uy = midy ∧
    screenX c0x (pinchStep s a b dist icx icy true).target.tx
      (pinchStep s a b dist icx icy true).target.scale ux = midx ∧
    screenX c0y (pinchStep s a b dist icx icy true).target.ty
      (pinchStep s a b dist icx icy true).target.scale uy = midy ∧
    (pinchStep s a b dist icx icy true).target.tx
      = s.target.tx -
        ((pinchStep s a b dist icx icy true).target.scale / s.target.scale - 1)
          * (midx - icx) ∧
    (pinchStep s a b dist icx icy true).target.ty
      = s.target.ty -
        ((pinchStep s a b dist icx icy true).target.scale / s.target.scale - 1)
          * (midy - icy) := by
  subst hicx hicy hmx hmy hux huy
  refine ⟨focal_before_aux _ _ _ _ hs, focal_before_aux _ _ _ _ hs, ?_, ?_,
    pinchStep_tx s a b dist _ _, pinchStep_ty s a b dist _ _⟩
  · rw [screenX, pinchStep_tx]
    exact focal_aux c0x s.target.tx s.target.scale _ _ hs
  · rw [screenX, pinchStep_ty]
    exact focal_aux c0y s.target.ty s.target.scale _ _ hs

/-- C2 witness: a concrete pinch (target (10, −5, 2), stored distance 2, new
    distance 3, pointers at (130,60) and (110,40), image layout center
    (100, 50)): the image point under the midpoint (120, 50) stays under it
    after the update. -/
theorem pinch_focal_point_witness :
    screenX 100
        ((pinchStep ⟨[], none, some 2, ⟨10, -5, 2⟩, ⟨0, 0⟩⟩ ⟨1, 130, 60⟩
            ⟨2, 110, 40⟩ 3 110 45 true).target.tx)
        ((pinchStep ⟨[], none, some 2, ⟨10, -5, 2⟩, ⟨0, 0⟩⟩ ⟨1, 130, 60⟩
            ⟨2, 110, 40⟩ 3 110 45 true).target.scale) 5 = 120 ∧
    screenX 50
        ((pinchStep ⟨[], none, some 2, ⟨10, -5, 2⟩, ⟨0, 0⟩⟩ ⟨1, 130, 60⟩
            ⟨2, 110, 40⟩ 3 110 45 true).target.ty)
        ((pinchStep ⟨[], none, some 2, ⟨10, -5, 2⟩, ⟨0, 0⟩⟩ ⟨1, 130, 60⟩
            ⟨2, 110, 40⟩ 3 110 45 true).target.scale) (5 / 2) = 50 := by
  have h := pinch_focal_point ⟨[], none, some 2, ⟨10, -5, 2⟩, ⟨0, 0⟩⟩
    ⟨1, 130, 60⟩ ⟨2, 110, 40⟩ 3 100 50 110 45 120 50 5 (5 / 2)
    (by norm_num) (by norm_num) (by norm_num) (by norm_num) (by norm_num)
    (by norm_num) (by norm_num)
  exact ⟨h.2.2.1, h.2.2.2.1⟩

/-- C3: every pinch update (with a positive inter-pointer distance) sets the
    target scale to clamp(prevScale · (dist / prevDist), 0.3, 4), which
    always lies in [0.3, 4]; a distance ratio of 100 from scale 1 yields
    exactly 4. -/
theorem pinch_scale_clamped :
    (∀ (s : GestureState) (a b : Pointer) (dist icx icy : ℚ) (ra : Bool),
        0 < dist →
        (3 : ℚ) / 10 ≤ (pinchStep s a b dist icx icy ra).target.scale ∧
        (pinchStep s a b dist icx icy ra).target.scale ≤ 4 ∧
        (pinchStep s a b dist icx icy ra).target.scale
          = clamp (s.target.scale *
              (dist / pinchPrevDist s.lastPinchDistance dist)) ((3 : ℚ) / 10) 4) ∧
    (pinchStep ⟨[], none, some 1, ⟨0, 0, 1⟩, ⟨0, 0⟩⟩ ⟨1, 0, 0⟩ ⟨2, 100, 0⟩
        100 0 0 true).target.scale = 4 := by
  constructor
  · intro s a b dist icx icy ra _
    refine ⟨?_, ?_, rfl⟩ <;> simp only [pinchStep, clamp]
    · exact le_max_left _ _
    · exact max_le (by norm_num) (min_le_left _ _)
  · norm_num [pinchStep, pinchPrevDist, clamp]

/-- C3 witness: a concrete pinch with positive distance stays in range. -/
theorem pinch_scale_clamped_witness :
    (3 : ℚ) / 10 ≤ (pinchStep ⟨[], none, some 2, ⟨0, 0, 1⟩, ⟨0, 0⟩⟩
        ⟨1, 0, 0⟩ ⟨2, 30, 40⟩ 100 0 0 false).target.scale ∧
    (pinchStep ⟨[], none, some 2, ⟨0, 0, 1⟩, ⟨0, 0⟩⟩
        ⟨1, 0, 0⟩ ⟨2, 30, 40⟩ 100 0 0 false).target.scale ≤ 4 := by
  have h := pinch_scale_clamped.1 ⟨[], none, some 2, ⟨0, 0, 1⟩, ⟨0, 0⟩⟩
    ⟨1, 0, 0⟩ ⟨2, 30, 40⟩ 100 0 0 false (by norm_num)
  exact ⟨h.1, h.2.1⟩

/-- C4: after N successful edits from the empty stack the undo stack equals
    the last min(N, 10) archived uris most-recent-first, so it has length
    min(N, 10); a push at capacity 10 evicts the oldest entry. -/
theorem undo_stack_bounded :
    (∀ us : List String,
        pushAll us = us.reverse.take 10 ∧
        (pushAll us).length = min us.length 10) ∧
    (∀ (u : String) (s : List String), s.length = 10 →
        pushUndo u s = u :: s.dropLast) := by
  constructor
  · intro us
    have h : pushAll us = us.reverse.take 10 := by
      have h0 := pushAll_general us [] (by simp)
      simpa [pushAll] using h0
    refine ⟨h, ?_⟩
    rw [h]
    simp [List.length_take, Nat.min_comm]
  · intro u s hs
    have hdl : s.dropLast = s.take 9 := by
      rw [List.dropLast_eq_take, hs]
    rw [hdl]
    rfl

/-- C4 witness: pushing onto a full ten-entry stack keeps the newest ten. -/
theorem undo_stack_bounded_witness :
    pushUndo "k" ["a", "b", "c", "d", "e", "f", "g", "h", "i", "j"]
      = ["k", "a", "b", "c", "d", "e", "f", "g", "h", "i"] := by
  have h := undo_stack_bounded.2 "k"
    ["a", "b", "c", "d", "e", "f", "g", "h", "i", "j"] (by decide)
  exact h.trans (by decide)

/-- C5 counterexample: the claim says undo on any non-empty stack pops the
    most recent entry and makes it current; but the guard `if (latest)` is a
    JS truthiness test, so on the non-empty stack [""] with current "x" the
    code is a no-op — it returns ("x", [""]), not ("", []). -/
theorem undo_nonempty_pop_cex :
    handleUndo "x" [""] = ("x", [""]) ∧
    ("x", [""]) ≠ (("", []) : String × List String) := by
  exact ⟨rfl, by decide⟩

/-- C5 amended: undo on an empty stack is a no-op that never fails; undo on
    a stack whose most recent entry is a non-empty string pops it and makes
    it current; hence, on a stack of non-empty entries, k undos in a row
    restore the archived states in exact reverse order of archiving (the
    current uri after k undos is the k-th entry, and the first k entries
    are consumed). -/
theorem undo_amended :
    (∀ cur : String, handleUndo cur [] = (cur, [])) ∧
    (∀ (cur latest : String) (rest : List String), latest ≠ "" →
        handleUndo cur (latest :: rest) = (latest, rest)) ∧
    (∀ (k : ℕ) (stack : List String) (cur : String),
        (∀ u ∈ stack, u ≠ "") → k ≤ stack.length →
        undoN k (cur, stack) = ((cur :: stack).getD k "", stack.drop k)) := by
  refine ⟨fun cur => rfl, ?_, ?_⟩
  · intro cur latest rest h
    simp [handleUndo, h]
  · intro k
    induction k with
    | zero =>
        intro stack cur _ _
        simp [undoN]
    | succ n ih =>
        intro stack cur hne hk
        cases stack with
        | nil => simp at hk
        | cons l rest =>
            have hl : l ≠ "" := hne l (by simp)
            have hrest : ∀ u ∈ rest, u ≠ "" := fun u hu => hne u (by simp [hu])
            have hk2 : n ≤ rest.length := by simpa using hk
            show undoN n (handleUndo cur (l :: rest)) = _
            rw [show handleUndo cur (l :: rest) = (l, rest) by
              simp [handleUndo, hl]]
            rw [ih rest l hrest hk2]
            simp [List.getD_cons_succ, List.drop_succ_cons]

/-- C5 witness: two undos on stack ["a", "b"] with current "c" make "a"
    then "b" current — reverse order of archiving. -/
theorem undo_amended_witness :
    undoN 2 ("c", ["a", "b"]) = ("b", []) := by
  have h := undo_amended.2.2 2 ["a", "b"] "c" (by decide) (by decide)
  exact h.trans (by decide)

/-- C6: the ratio crop computed by the code coincides, for every source size
    and target ratio, with the crop described by the spec (centered crop of
    the longer axis, Math-rounded coordinates, lossless PNG output), and on
    a 400×300 image with target ratio 1:1 it yields a 300×300 output with
    sx = 50, sy = 0. -/
theorem cropToRatio_correct :
    (∀ w h a b : ℕ, cropToRatio w h a b = cropToRatioSpec w h a b) ∧
    cropToRatio 400 300 1 1 = ⟨50, 0, 300, 300, "image/png"⟩ := by
  constructor
  · intro w h a b
    rfl
  · norm_num [cropToRatio, jround]

/-- C7: flipHorizontal reverses every row: the raster keeps its height and
    every row its width, pixel (i, j) of the output is pixel
    (i, width − 1 − j) of the input, and flipping twice is the identity,
    pixel for pixel. -/
theorem flip_involutive :
    (∀ img : List (List ℕ), flipHorizontal (flipHorizontal img) = img) ∧
    (∀ img : List (List ℕ),
        (flipHorizontal img).length = img.length ∧
        ∀ i : ℕ, ((flipHorizontal img).getD i []).length
          = (img.getD i []).length) ∧
    (∀ (img : List (List ℕ)) (i j : ℕ), j < (img.getD i []).length →
        ((flipHorizontal img).getD i []).getD j 0
          = (img.getD i []).getD ((img.getD i []).length - 1 - j) 0) := by
  refine ⟨?_, ?_, ?_⟩
  · intro img
    simp [flipHorizontal, List.map_map, Function.comp_def]
  · intro img
    refine ⟨by simp [flipHorizontal], ?_⟩
    intro i
    rw [flip_getD]
    simp
  · intro img i j hj
    rw [flip_getD]
    exact reverse_getD _ j hj

/-- C7 witness: on the 2×3 raster [[1,2,3],[4,5,6]], output pixel (0, 0)
    equals input pixel (0, 2). -/
theorem flip_involutive_witness :
    ((flipHorizontal [[1, 2, 3], [4, 5, 6]]).getD 0 []).getD 0 0
      = (([[1, 2, 3], [4, 5, 6]].getD 0 []) : List ℕ).getD 2 0 := by
  have h := flip_involutive.2.2 [[1, 2, 3], [4, 5, 6]] 0 0 (by decide)
  exact h.trans (by decide)

/-- C8 counterexample: the claim says that once both velocity components are
    below 0.05 the velocity is reset and no further frames are scheduled;
    but with zero velocity and the display still 100 px from the target the
    loop schedules another frame (tick returns true). -/
theorem fling_stop_cex :
    |(0 : ℚ)| < 5 / 100 ∧
    tick ⟨⟨0, 0, 1⟩, ⟨100, 0, 1⟩, ⟨0, 0⟩⟩
      = (⟨⟨15, 0, 1⟩, ⟨100, 0, 1⟩, ⟨0, 0⟩⟩, true) := by
  exact ⟨by norm_num, by norm_num [tick, easeStep, applyFling, closeEnough]⟩

/-- C8 amended: on an animation frame the velocity is added into the
    displayed transform and multiplied by 0.92 exactly when one of its
    components exceeds 0.02 in absolute value (otherwise both are left
    untouched); the loop stops scheduling exactly when, after the update,
    the display is within (0.3, 0.3, 0.001) of the target AND both velocity
    components are below 0.05 — at which point the display snaps to the
    target and the velocity is reset to exactly (0, 0); otherwise one more
    frame is scheduled. -/
theorem fling_amended :
    (∀ (c : TransformState) (v : Velocity),
        ((2 : ℚ) / 100 < |v.vx| ∨ (2 : ℚ) / 100 < |v.vy| →
          applyFling c v = (⟨c.tx + v.vx, c.ty + v.vy, c.scale⟩,
            ⟨v.vx * (92 / 100), v.vy * (92 / 100)⟩)) ∧
        (¬ ((2 : ℚ) / 100 < |v.vx| ∨ (2 : ℚ) / 100 < |v.vy|) →
          applyFling c v = (c, v))) ∧
    (∀ s : LoopState,
        ((tick s).2 = false ↔
          closeEnough s.tgt (applyFling (easeStep s.cur s.tgt) s.vel).1
            (applyFling (easeStep s.cur s.tgt) s.vel).2) ∧
        ((tick s).2 = false → (tick s).1 = ⟨s.tgt, s.tgt, ⟨0, 0⟩⟩) ∧
        ((tick s).2 = true →
          (tick s).1 = ⟨(applyFling (easeStep s.cur s.tgt) s.vel).1, s.tgt,
            (applyFling (easeStep s.cur s.tgt) s.vel).2⟩)) := by
  constructor
  · intro c v
    constructor
    · intro h
      simp [applyFling, h]
    · intro h
      simp [applyFling, h]
  · intro s
    by_cases h : closeEnough s.tgt (applyFling (easeStep s.cur s.tgt) s.vel).1
      (applyFling (easeStep s.cur s.tgt) s.vel).2
    · refine ⟨by simp [tick, h], fun _ => by simp [tick, h], fun htrue => ?_⟩
      rw [show (tick s).2 = false by simp [tick, h]] at htrue
      exact absurd htrue (by simp)
    · refine ⟨by simp [tick, h], fun hfalse => ?_, fun _ => by simp [tick, h]⟩
      rw [show (tick s).2 = true by simp [tick, h]] at hfalse
      exact absurd hfalse (by simp)

/-- C8 witness: with velocity (0.03, 0) the gate 0.02 < |vx| is met, so the
    fling is applied and decayed; and at display = target = (0,0,1) the tick
    converges: the returned state has velocity exactly (0, 0). -/
theorem fling_amended_witness :
    applyFling ⟨0, 0, 1⟩ ⟨3 / 100, 0⟩
      = (⟨3 / 100, 0, 1⟩, ⟨3 / 100 * (92 / 100), 0⟩) ∧
    (tick ⟨⟨0, 0, 1⟩, ⟨0, 0, 1⟩, ⟨3 / 100, 0⟩⟩).1
      = ⟨⟨0, 0, 1⟩, ⟨0, 0, 1⟩, ⟨0, 0⟩⟩ := by
  constructor
  · have h := (fling_amended.1 ⟨0, 0, 1⟩ ⟨3 / 100, 0⟩).1
      (by norm_num [abs_of_nonneg])
    rw [h]
    norm_num
  · exact (fling_amended.2 ⟨⟨0, 0, 1⟩, ⟨0, 0, 1⟩, ⟨3 / 100, 0⟩⟩).2.1
      (by norm_num [tick, easeStep, applyFling, closeEnough, abs_of_nonneg])

/-- C9 counterexample: the claim says every failing edit operation — decode
    failure included — is caught and reported; but when the overlay
    handler's main image fails to decode, no onerror is wired, the awaited
    promise never settles, and the handler hangs: nothing is caught
    (settled = false), nothing is reported (alert = none) and the busy flag
    stays true — though the current uri and the undo stack are indeed left
    unchanged. -/
theorem overlay_decode_failure_unreported_cex :
    handleApplyOverlay false true (Except.ok "u") "cur" ["s"]
      = ⟨"cur", ["s"], none, false, true⟩ ∧
    (handleApplyOverlay false true (Except.ok "u") "cur" ["s"]).alert = none ∧
    (handleApplyOverlay false true (Except.ok "u") "cur" ["s"]).settled
      = false := by
  exact ⟨rfl, rfl, rfl⟩

/-- C9 amended: no failing edit operation ever mutates the current uri or
    the undo stack; every failure that surfaces as a thrown error or a
    rejected promise — background-removal rejection, a decode failure
    inside applyCanvasOperations (whose img.onerror is wired), a missing
    2d context, or a throw while compositing the overlay — is caught and
    reported as the handler's alert; but a decode failure of an image
    awaited inside handleApplyOverlay is never caught or reported: the
    handler hangs before any mutation, with the busy flag stuck true. -/
theorem edit_failure_amended :
    (∀ (e msg cur : String) (stack : List String),
        applyEdit (Except.error e) msg cur stack = (cur, stack, some msg)) ∧
    (∀ (e cur : String) (stack : List String),
        handleBackgroundRemove (Except.error e) cur stack
          = (cur, stack, some "Background removal failed.")) ∧
    (∀ (ctxOk : Bool) (enc msg cur : String) (stack : List String),
        applyEdit (applyCanvasOperations false ctxOk enc) msg cur stack
          = (cur, stack, some msg) ∧
        applyEdit (applyCanvasOperations true false enc) msg cur stack
          = (cur, stack, some msg)) ∧
    (∀ (e cur : String) (stack : List String),
        handleApplyOverlay true true (Except.error e) cur stack
          = ⟨cur, stack, some "Apply overlay failed", true, false⟩) ∧
    (∀ (res : Except String String) (cur : String) (stack : List String),
        handleApplyOverlay false true res cur stack
          = ⟨cur, stack, none, false, true⟩ ∧
        handleApplyOverlay true false res cur stack
          = ⟨cur, stack, none, false, true⟩) ∧
    (∀ (enc msg cur : String) (stack : List String),
        applyEdit (applyCanvasOperations true true enc) msg cur stack
          = (enc, pushUndo cur stack, none)) := by
  refine ⟨fun e msg cur stack => rfl, fun e cur stack => rfl,
    fun ctxOk enc msg cur stack => ⟨?_, rfl⟩, fun e cur stack => rfl,
    fun res cur stack => ⟨rfl, rfl⟩, fun enc msg cur stack => rfl⟩
  cases ctxOk <;> rfl

/-- C10: onPointerDown sets the fling velocity to exactly (0, 0), and a tick
    running on that velocity applies no inertial displacement (the fling
    gate is not taken), so a previous gesture's inertia never carries into a
    new gesture. -/
theorem pointer_down_clears_velocity :
    ∀ (s : GestureState) (pid : ℕ) (x y t : ℚ) (c : TransformState),
      (onPointerDown s pid x y t).velocity = ⟨0, 0⟩ ∧
      applyFling c (onPointerDown s pid x y t).velocity = (c, ⟨0, 0⟩) := by
  intro s pid x y t c
  refine ⟨rfl, ?_⟩
  show applyFling c ⟨0, 0⟩ = (c, ⟨0, 0⟩)
  simp [applyFling]

end EasyPix
